import Mathlib

/-!
Shallow embedding of the `tlru` cache (github.com/jahnestacado/tlru, file
`tlru.go`, generic version) and proofs about its specification claims.

Modelling conventions, fixed once for the whole development:

* `time.Time` and `time.Duration` are both modelled as `Int` (Go stores both
  as int64 nanosecond counts).  Each public operation receives one explicit
  `now : Int`; `time.Since(t)` is `now - t`.  Go calls `time.Now()` several
  times inside one operation; the sub-nanosecond drift between those calls is
  below the resolution of every claim, so a single `now` per call is used.
* `counter` (Go `int64`) is modelled as an unbounded `Int`; the claims only
  concern increments far below the int64 overflow boundary.
* The eviction channel is modelled by returning the list of `EvictedEntry`
  records sent during the operation (empty when no channel is configured).
  Every operation returns such a list, mirroring which code paths reach the
  channel send in `evictEntry`.
* The intrusive doubly-linked list (`headNode` / `tailNode` sentinels) is
  modelled as `nodes : List (DoublyLinkedNode K V)` in MRU-first order:
  `nodes.head?` is `headNode.next` (the MRU node) and `nodes.getLast?` is
  `tailNode.previous` (the LRU node).  Unlinking a node is `List.erase`,
  push-to-front is `List.cons`.
* The Go map `c.cache` maps each live key to the pointer of its list node.
  Every map write in the source is paired with the corresponding list splice
  (insert in `handleNodeState`, delete in `evictEntry`, wholesale rebuild in
  `clear` and `SetState`), so the map's domain is always the set of keys
  occurring in the list and, whenever the list keys are distinct, the map
  sends a key to the unique list node carrying it.  We therefore derive the
  map from the list: domain `indexKeys` (deduplicated key list, so its length
  is `len(c.cache)`) and lookup `lookupNode` (first node with the key).  All
  claims are settled in states whose list keys are distinct; the only way to
  produce duplicate list keys is `SetState` with a duplicate-key snapshot,
  which no claim exercises.
* `garbageCollectionTimer` is a `*time.Timer` created with `time.AfterFunc`,
  which runs its callback once and is never rescheduled; the handle stays
  non-nil after firing.  This is modelled by a three-phase `GCTimer` state:
  `noTimer` (nil pointer), `armed` (timer pending), `fired` (callback has
  run).  `gcTick` is the timer goroutine delivering the callback; it can run
  only in phase `armed`.  The numeric `garbageCollectionInterval` only fixes
  the real-time delay before the tick and does not appear in the discrete
  model.
-/

set_option linter.unusedSectionVars false

namespace Tlru

/-- Eviction policy: `LRA` (least recently accessed) or `LRI` (least recently
inserted).  Go: `evictionPolicy` constants. -/
inductive EvictionPolicy where
  | lra
  | lri
deriving DecidableEq

/-- Reason carried by an eviction notification.  Go: `evictionReason`. -/
inductive EvictionReason where
  | dropped
  | expired
  | deleted
deriving DecidableEq

/-- Errors returned by `Set` (duplicate key under LRA) and `SetState`
(policy mismatch).  Go returns `error` values built with `fmt.Errorf`. -/
inductive CacheError where
  | duplicateKey
  | policyMismatch
deriving DecidableEq

/-- Phase of `c.garbageCollectionTimer`: nil pointer, pending `AfterFunc`
timer, or a timer whose callback has already run (handle still non-nil). -/
inductive GCTimer where
  | noTimer
  | armed
  | fired
deriving DecidableEq

/-- Go: `Config[K, V]`.  `maxSize` is a Go `int`; `ttl` a `time.Duration`
(int64 nanoseconds).  `hasEvictionChannel` records whether
`config.EvictionChannel != nil`. -/
structure Config (K V : Type) where
  maxSize : Int
  ttl : Int
  hasEvictionChannel : Bool
  evictionPolicy : EvictionPolicy
deriving DecidableEq

/-- Go: `Entry[K, V]`, the caller input of `set`. -/
structure Entry (K V : Type) where
  key : K
  value : V
  timestamp : Option Int
deriving DecidableEq

/-- Go: `doublyLinkedNode[K, V]` without the `previous`/`next` pointers,
which are represented by the node's position in `CacheState.nodes`. -/
structure DoublyLinkedNode (K V : Type) where
  key : K
  value : V
  counter : Int
  lastUsedAt : Int
  createdAt : Int
deriving DecidableEq

/-- Go: `CacheEntry[K, V]`, the snapshot returned by `Get`/`Entries`. -/
structure CacheEntry (K V : Type) where
  key : K
  value : V
  counter : Int
  lastUsedAt : Int
  createdAt : Int
deriving DecidableEq

/-- Go: `EvictedEntry[K, V]`, the record sent on the eviction channel. -/
structure EvictedEntry (K V : Type) where
  key : K
  value : V
  counter : Int
  lastUsedAt : Int
  createdAt : Int
  evictedAt : Int
  reason : EvictionReason
deriving DecidableEq

/-- Go: `StateEntry[K, V]`, a node without pointer references. -/
structure StateEntry (K V : Type) where
  key : K
  value : V
  counter : Int
  lastUsedAt : Int
  createdAt : Int
deriving DecidableEq

/-- Go: `State[K, V]`, the exported cache state. -/
structure State (K V : Type) where
  entries : List (StateEntry K V)
  evictionPolicy : EvictionPolicy
  extractedAt : Int
deriving DecidableEq

/-- Go: `(d *doublyLinkedNode).ToCacheEntry()`. -/
def DoublyLinkedNode.toCacheEntry {K V : Type} (d : DoublyLinkedNode K V) : CacheEntry K V :=
  { key := d.key, value := d.value, counter := d.counter,
    lastUsedAt := d.lastUsedAt, createdAt := d.createdAt }

/-- Go: `(d *doublyLinkedNode).ToEvictedEntry(reason)`; `EvictedAt` is the
current time. -/
def DoublyLinkedNode.toEvictedEntry {K V : Type} (d : DoublyLinkedNode K V)
    (reason : EvictionReason) (now : Int) : EvictedEntry K V :=
  { key := d.key, value := d.value, counter := d.counter,
    lastUsedAt := d.lastUsedAt, createdAt := d.createdAt,
    evictedAt := now, reason := reason }

/-- Go: `(d *doublyLinkedNode).ToStateEntry()`. -/
def DoublyLinkedNode.toStateEntry {K V : Type} (d : DoublyLinkedNode K V) : StateEntry K V :=
  { key := d.key, value := d.value, counter := d.counter,
    lastUsedAt := d.lastUsedAt, createdAt := d.createdAt }

/-- Go: the `rehydratedNode` built from a `StateEntry` in `SetState`. -/
def StateEntry.toNode {K V : Type} (e : StateEntry K V) : DoublyLinkedNode K V :=
  { key := e.key, value := e.value, counter := e.counter,
    lastUsedAt := e.lastUsedAt, createdAt := e.createdAt }

/-- The mutable state of a `tlru[K, V]` value: the recency list (MRU first)
and the garbage-collection timer phase.  The Go map `c.cache` is derived from
`nodes` (see the module comment). -/
structure CacheState (K V : Type) where
  nodes : List (DoublyLinkedNode K V)
  gcTimer : GCTimer
deriving DecidableEq

/-- Go: `New(config)` — empty list between the sentinels, nil timer. -/
def newCache {K V : Type} : CacheState K V :=
  { nodes := [], gcTimer := GCTimer.noTimer }

variable {K V : Type} [DecidableEq K] [DecidableEq V]

/-- The keys of the recency list, head to tail. -/
def keysOf (c : CacheState K V) : List K :=
  c.nodes.map (fun n => n.key)

/-- The domain of the Go map `c.cache`: the distinct keys of the list, so
`(indexKeys c).length = len(c.cache)`. -/
def indexKeys (c : CacheState K V) : List K :=
  (keysOf c).dedup

/-- Go: `len(c.cache)`, the live population. -/
def population (c : CacheState K V) : Nat :=
  (indexKeys c).length

/-- Go: `linkedNode, exists := c.cache[key]` — the node the map associates to
`key` (the unique list node with that key when list keys are distinct). -/
def lookupNode (c : CacheState K V) (k : K) : Option (DoublyLinkedNode K V) :=
  c.nodes.find? (fun n => n.key == k)

/-- Go: `_, exists := c.cache[key]` as a boolean. -/
def hasKey (c : CacheState K V) (k : K) : Bool :=
  decide (k ∈ indexKeys c)

/-- The channel send in `evictEntry`: one record if an eviction channel is
configured, nothing otherwise. -/
def emitted (cfg : Config K V) (n : DoublyLinkedNode K V) (reason : EvictionReason)
    (now : Int) : List (EvictedEntry K V) :=
  if cfg.hasEvictionChannel then [n.toEvictedEntry reason now] else []

/-- Go: `(c *tlru).evictEntry(evictedNode, reason)` — unlink the node, delete
its key from the map (derived), send the notification if a channel exists. -/
def evictEntry (cfg : Config K V) (c : CacheState K V) (n : DoublyLinkedNode K V)
    (reason : EvictionReason) (now : Int) : CacheState K V × List (EvictedEntry K V) :=
  ({ c with nodes := c.nodes.erase n }, emitted cfg n reason now)

/-- Go: `(c *tlru).handleNodeState(e)`.  On an existing key: increment the
counter when the node is not yet expired, stamp `lastUsedAt`, unlink and push
to front.  On a new key: build a node with counter 0 (LRA) or 1 (LRI),
`createdAt = now`, and push it to front. -/
def handleNodeState (cfg : Config K V) (c : CacheState K V) (e : Entry K V)
    (now : Int) : CacheState K V :=
  let counter : Int := if cfg.evictionPolicy = EvictionPolicy.lri then 1 else 0
  let lastUsedAt : Int := e.timestamp.getD now
  match lookupNode c e.key with
  | some n =>
      let upd : DoublyLinkedNode K V :=
        { n with
          counter := if cfg.ttl ≥ now - n.lastUsedAt then n.counter + 1 else n.counter,
          lastUsedAt := lastUsedAt }
      { c with nodes := upd :: c.nodes.erase n }
  | none =>
      let fresh : DoublyLinkedNode K V :=
        { key := e.key, value := e.value, counter := counter,
          lastUsedAt := lastUsedAt, createdAt := now }
      { c with nodes := fresh :: c.nodes }

/-- One pass of the `evictExpiredEntries` loop over the list in traversal
order (from `tailNode.previous` toward `headNode`, i.e. LRU first): returns
the surviving nodes in the same LRU-first order together with the emitted
notifications in emission order. -/
def sweepLRUFirst (cfg : Config K V) (now : Int) :
    List (DoublyLinkedNode K V) → List (DoublyLinkedNode K V) × List (EvictedEntry K V)
  | [] => ([], [])
  | n :: rest =>
      let r := sweepLRUFirst cfg now rest
      if cfg.ttl < now - n.lastUsedAt then
        (r.1, emitted cfg n EvictionReason.expired now ++ r.2)
      else
        (n :: r.1, r.2)

/-- Go: `(c *tlru).evictExpiredEntries()` — walk `tail.prev` toward `head`,
evicting every expired node with reason `Expired`. -/
def evictExpiredEntries (cfg : Config K V) (c : CacheState K V) (now : Int) :
    CacheState K V × List (EvictedEntry K V) :=
  let r := sweepLRUFirst cfg now c.nodes.reverse
  ({ c with nodes := r.1.reverse }, r.2)

/-- Go: `(c *tlru).clear()` — reset list and map when the cache is non-empty;
the timer is untouched. -/
def clearInternal (c : CacheState K V) : CacheState K V :=
  if 0 < population c then { c with nodes := [] } else c

/-- The opening block of `set`: when `c.garbageCollectionTimer == nil`,
install a pending `time.AfterFunc` timer. -/
def armTimer (c : CacheState K V) : CacheState K V :=
  if c.gcTimer = GCTimer.noTimer then { c with gcTimer := GCTimer.armed } else c

/-- Go: `(c *tlru).set(key, value, timestamp)` (backing `Set` and
`SetWithTimestamp`).  Starts the GC timer when the handle is nil, evicts the
LRU node with reason `Dropped` when the cache is full and the key is new,
rejects duplicate keys under LRA, otherwise delegates to `handleNodeState`. -/
def set (cfg : Config K V) (c : CacheState K V) (k : K) (v : V) (ts : Option Int)
    (now : Int) : Option CacheError × CacheState K V × List (EvictedEntry K V) :=
  let c1 := armTimer c
  let keyExists := hasKey c1 k
  let dropped :=
    if cfg.maxSize ≠ 0 ∧ keyExists = false ∧ (population c1 : Int) = cfg.maxSize then
      match c1.nodes.getLast? with
      | some last => evictEntry cfg c1 last EvictionReason.dropped now
      | none => (c1, [])
    else
      (c1, [])
  if keyExists = true ∧ cfg.evictionPolicy = EvictionPolicy.lra then
    (some CacheError.duplicateKey, dropped.1, dropped.2)
  else
    (none, handleNodeState cfg dropped.1 { key := k, value := v, timestamp := ts } now, dropped.2)

/-- Go: `(c *tlru).Get(key)`.  Misses return `nil`; an expired hit is evicted
with reason `Expired` and returns `nil`; a live hit is touched under LRA (via
`handleNodeState`) and snapshotted. -/
def get (cfg : Config K V) (c : CacheState K V) (k : K) (now : Int) :
    Option (CacheEntry K V) × CacheState K V × List (EvictedEntry K V) :=
  match lookupNode c k with
  | none => (none, c, [])
  | some n =>
      if cfg.ttl < now - n.lastUsedAt then
        let r := evictEntry cfg c n EvictionReason.expired now
        (none, r.1, r.2)
      else if cfg.evictionPolicy = EvictionPolicy.lra then
        let c1 := handleNodeState cfg c { key := k, value := n.value, timestamp := none } now
        ((lookupNode c1 k).map DoublyLinkedNode.toCacheEntry, c1, [])
      else
        (some n.toCacheEntry, c, [])

/-- Go: `(c *tlru).Delete(key)` — evict with reason `Deleted` when present. -/
def delete (cfg : Config K V) (c : CacheState K V) (k : K) (now : Int) :
    CacheState K V × List (EvictedEntry K V) :=
  match lookupNode c k with
  | some n => evictEntry cfg c n EvictionReason.deleted now
  | none => (c, [])

/-- Go: `(c *tlru).Keys()` — sweep expired entries, then list the keys of the
map (Go iterates the map in unspecified order; the model returns list
order). -/
def keys (cfg : Config K V) (c : CacheState K V) (now : Int) :
    List K × CacheState K V × List (EvictedEntry K V) :=
  let r := evictExpiredEntries cfg c now
  (keysOf r.1, r.1, r.2)

/-- Go: `(c *tlru).Entries()` — sweep expired entries, then snapshot every
node (map iteration order unspecified; the model returns list order). -/
def entries (cfg : Config K V) (c : CacheState K V) (now : Int) :
    List (CacheEntry K V) × CacheState K V × List (EvictedEntry K V) :=
  let r := evictExpiredEntries cfg c now
  (r.1.nodes.map DoublyLinkedNode.toCacheEntry, r.1, r.2)

/-- Go: `(c *tlru).Clear()` — `c.clear()` plus stopping and discarding the
GC timer.  No `evictEntry` call is reached, so nothing is emitted. -/
def clear (c : CacheState K V) : CacheState K V × List (EvictedEntry K V) :=
  let c1 := clearInternal c
  ({ c1 with gcTimer := GCTimer.noTimer }, [])

/-- Go: `(c *tlru).GetState()` — walk head to tail collecting state entries
(MRU first) with the configured policy and extraction time. -/
def getState (cfg : Config K V) (c : CacheState K V) (now : Int) : State K V :=
  { evictionPolicy := cfg.evictionPolicy, extractedAt := now,
    entries := c.nodes.map DoublyLinkedNode.toStateEntry }

/-- Go: `(c *tlru).SetState(state)` — reject a mismatched policy, otherwise
`c.clear()` and rebuild list and map from the state entries in order.  The
GC timer is untouched and nothing is emitted. -/
def setState (cfg : Config K V) (c : CacheState K V) (s : State K V) :
    Option CacheError × CacheState K V × List (EvictedEntry K V) :=
  if s.evictionPolicy ≠ cfg.evictionPolicy then
    (some CacheError.policyMismatch, c, [])
  else
    let c1 := clearInternal c
    (none, { c1 with nodes := s.entries.map StateEntry.toNode }, [])

/-- Go: `(c *tlru).Has(key)` — a map lookup under the read lock; no list or
map write and no channel send appears on this path. -/
def has (c : CacheState K V) (k : K) :
    Bool × CacheState K V × List (EvictedEntry K V) :=
  (hasKey c k, c, [])

/-- The timer goroutine of `time.AfterFunc` delivering the callback
(`c.evictExpiredEntries()` under the lock).  The callback runs only while the
timer is pending, runs once, and does not reschedule; the Bool reports
whether a sweep ran. -/
def gcTick (cfg : Config K V) (c : CacheState K V) (now : Int) :
    Bool × CacheState K V × List (EvictedEntry K V) :=
  match c.gcTimer with
  | GCTimer.armed =>
      let r := evictExpiredEntries cfg c now
      (true, { r.1 with gcTimer := GCTimer.fired }, r.2)
  | _ => (false, c, [])

/-- `j` consecutive `Set(k, v)` calls at time `now` (no explicit
timestamps). -/
def setIter (cfg : Config K V) (c : CacheState K V) (k : K) (v : V) (now : Int) :
    Nat → CacheState K V
  | 0 => c
  | j + 1 => (set cfg (setIter cfg c k v now j) k v none now).2.1

/-! Helper lemmas about the embedding. -/

theorem armTimer_nodes (c : CacheState K V) : (armTimer c).nodes = c.nodes := by
  unfold armTimer; split <;> rfl

theorem keysOf_armTimer (c : CacheState K V) : keysOf (armTimer c) = keysOf c := by
  simp [keysOf, armTimer_nodes]

theorem population_armTimer (c : CacheState K V) :
    population (armTimer c) = population c := by
  simp [population, indexKeys, keysOf_armTimer]

theorem lookupNode_armTimer (c : CacheState K V) (k : K) :
    lookupNode (armTimer c) k = lookupNode c k := by
  simp [lookupNode, armTimer_nodes]

theorem hasKey_armTimer (c : CacheState K V) (k : K) :
    hasKey (armTimer c) k = hasKey c k := by
  simp [hasKey, indexKeys, keysOf_armTimer]

theorem hasKey_iff (c : CacheState K V) (k : K) :
    hasKey c k = true ↔ k ∈ keysOf c := by
  simp [hasKey, indexKeys, List.mem_dedup]

theorem hasKey_eq_false_iff (c : CacheState K V) (k : K) :
    hasKey c k = false ↔ k ∉ keysOf c := by
  simp [hasKey, indexKeys, List.mem_dedup]

theorem mem_indexKeys_iff (c : CacheState K V) (k : K) :
    k ∈ indexKeys c ↔ k ∈ keysOf c := by
  simp [indexKeys, List.mem_dedup]

theorem lookupNode_mem {c : CacheState K V} {k : K} {n : DoublyLinkedNode K V}
    (h : lookupNode c k = some n) : n ∈ c.nodes :=
  List.mem_of_find?_eq_some h

theorem lookupNode_key {c : CacheState K V} {k : K} {n : DoublyLinkedNode K V}
    (h : lookupNode c k = some n) : n.key = k := by
  have hp := List.find?_some h
  exact beq_iff_eq.mp hp

theorem lookupNode_eq_none_iff (c : CacheState K V) (k : K) :
    lookupNode c k = none ↔ k ∉ keysOf c := by
  simp [lookupNode, List.find?_eq_none, keysOf, List.mem_map]

theorem lookupNode_isSome_of_mem {c : CacheState K V} {k : K} (h : k ∈ keysOf c) :
    ∃ n, lookupNode c k = some n := by
  have : (c.nodes.find? (fun n => n.key == k)).isSome := by
    rw [List.find?_isSome]
    obtain ⟨n, hn, hk⟩ := List.mem_map.1 h
    exact ⟨n, hn, by simp [hk]⟩
  exact Option.isSome_iff_exists.1 this

theorem handleNodeState_gcTimer (cfg : Config K V) (c : CacheState K V) (e : Entry K V)
    (now : Int) : (handleNodeState cfg c e now).gcTimer = c.gcTimer := by
  unfold handleNodeState
  cases h : lookupNode c e.key <;> simp [h]

theorem handleNodeState_none (cfg : Config K V) (c : CacheState K V) (k : K) (v : V)
    (ts : Option Int) (now : Int) (h : lookupNode c k = none) :
    handleNodeState cfg c { key := k, value := v, timestamp := ts } now =
      { c with nodes :=
          { key := k, value := v,
            counter := if cfg.evictionPolicy = EvictionPolicy.lri then 1 else 0,
            lastUsedAt := ts.getD now, createdAt := now } :: c.nodes } := by
  simp [handleNodeState, h]

theorem handleNodeState_some (cfg : Config K V) (c : CacheState K V) (k : K) (v : V)
    (ts : Option Int) (now : Int) (n : DoublyLinkedNode K V) (h : lookupNode c k = some n) :
    handleNodeState cfg c { key := k, value := v, timestamp := ts } now =
      { c with nodes :=
          { n with
            counter := if cfg.ttl ≥ now - n.lastUsedAt then n.counter + 1 else n.counter,
            lastUsedAt := ts.getD now } :: c.nodes.erase n } := by
  simp [handleNodeState, h]

theorem set_of_mem (cfg : Config K V) (c : CacheState K V) (k : K) (v : V)
    (ts : Option Int) (now : Int) (hk : k ∈ keysOf c) :
    set cfg c k v ts now =
      if cfg.evictionPolicy = EvictionPolicy.lra then
        (some CacheError.duplicateKey, armTimer c, [])
      else
        (none, handleNodeState cfg (armTimer c) { key := k, value := v, timestamp := ts } now,
         []) := by
  have h1 : hasKey (armTimer c) k = true := by
    rw [hasKey_armTimer]; exact (hasKey_iff c k).2 hk
  by_cases hp : cfg.evictionPolicy = EvictionPolicy.lra <;> simp [set, h1, hp]

theorem set_of_not_mem_full (cfg : Config K V) (c : CacheState K V) (k : K) (v : V)
    (ts : Option Int) (now : Int) (last : DoublyLinkedNode K V) (hk : k ∉ keysOf c)
    (hms : cfg.maxSize ≠ 0) (hfull : (population c : Int) = cfg.maxSize)
    (hlast : c.nodes.getLast? = some last) :
    set cfg c k v ts now =
      (none,
       handleNodeState cfg { armTimer c with nodes := c.nodes.erase last }
         { key := k, value := v, timestamp := ts } now,
       emitted cfg last EvictionReason.dropped now) := by
  have h1 : hasKey (armTimer c) k = false := by
    rw [hasKey_armTimer]; exact (hasKey_eq_false_iff c k).2 hk
  simp [set, h1, hms, population_armTimer, hfull, armTimer_nodes, hlast, evictEntry]

theorem set_of_not_mem_full_nil (cfg : Config K V) (c : CacheState K V) (k : K) (v : V)
    (ts : Option Int) (now : Int) (hk : k ∉ keysOf c)
    (hms : cfg.maxSize ≠ 0) (hfull : (population c : Int) = cfg.maxSize)
    (hnil : c.nodes.getLast? = none) :
    set cfg c k v ts now =
      (none, handleNodeState cfg (armTimer c) { key := k, value := v, timestamp := ts } now,
       []) := by
  have h1 : hasKey (armTimer c) k = false := by
    rw [hasKey_armTimer]; exact (hasKey_eq_false_iff c k).2 hk
  simp [set, h1, hms, population_armTimer, hfull, armTimer_nodes, hnil]

theorem set_of_not_mem_notfull (cfg : Config K V) (c : CacheState K V) (k : K) (v : V)
    (ts : Option Int) (now : Int) (hk : k ∉ keysOf c)
    (hguard : ¬(cfg.maxSize ≠ 0 ∧ (population c : Int) = cfg.maxSize)) :
    set cfg c k v ts now =
      (none, handleNodeState cfg (armTimer c) { key := k, value := v, timestamp := ts } now,
       []) := by
  have h1 : hasKey (armTimer c) k = false := by
    rw [hasKey_armTimer]; exact (hasKey_eq_false_iff c k).2 hk
  have h2 : ¬(cfg.maxSize ≠ 0 ∧ hasKey (armTimer c) k = false ∧
      (population (armTimer c) : Int) = cfg.maxSize) := by
    rw [h1, population_armTimer]
    intro ⟨ha, _, hb⟩
    exact hguard ⟨ha, hb⟩
  simp only [set]
  rw [if_neg h2, if_neg (by simp [h1])]

theorem set_gcTimer (cfg : Config K V) (c : CacheState K V) (k : K) (v : V)
    (ts : Option Int) (now : Int) :
    (set cfg c k v ts now).2.1.gcTimer = (armTimer c).gcTimer := by
  by_cases hk : k ∈ keysOf c
  · rw [set_of_mem cfg c k v ts now hk]
    by_cases hp : cfg.evictionPolicy = EvictionPolicy.lra
    · simp [hp]
    · simp [hp, handleNodeState_gcTimer]
  · by_cases hg : cfg.maxSize ≠ 0 ∧ (population c : Int) = cfg.maxSize
    · cases hlast : c.nodes.getLast? with
      | none =>
          rw [set_of_not_mem_full_nil cfg c k v ts now hk hg.1 hg.2 hlast]
          simp [handleNodeState_gcTimer]
      | some last =>
          rw [set_of_not_mem_full cfg c k v ts now last hk hg.1 hg.2 hlast]
          simp [handleNodeState_gcTimer]
    · rw [set_of_not_mem_notfull cfg c k v ts now hk hg]
      simp [handleNodeState_gcTimer]

theorem armTimer_gcTimer_of_noTimer {c : CacheState K V} (h : c.gcTimer = GCTimer.noTimer) :
    (armTimer c).gcTimer = GCTimer.armed := by
  simp [armTimer, h]

theorem armTimer_of_ne {c : CacheState K V} (h : c.gcTimer ≠ GCTimer.noTimer) :
    armTimer c = c := by
  simp [armTimer, h]

theorem sweepLRUFirst_fst (cfg : Config K V) (now : Int)
    (l : List (DoublyLinkedNode K V)) :
    (sweepLRUFirst cfg now l).1 =
      l.filter (fun n => decide (now - n.lastUsedAt ≤ cfg.ttl)) := by
  induction l with
  | nil => rfl
  | cons n rest ih =>
      simp only [sweepLRUFirst]
      split
      · next h =>
          rw [List.filter_cons, if_neg (by simpa using not_le.2 h)]
          exact ih
      · next h =>
          rw [List.filter_cons, if_pos (by simpa using not_lt.1 h)]
          rw [ih]

theorem sweepLRUFirst_snd (cfg : Config K V) (now : Int)
    (l : List (DoublyLinkedNode K V)) :
    (sweepLRUFirst cfg now l).2 =
      if cfg.hasEvictionChannel then
        (l.filter (fun n => decide (cfg.ttl < now - n.lastUsedAt))).map
          (fun n => n.toEvictedEntry EvictionReason.expired now)
      else [] := by
  induction l with
  | nil => simp [sweepLRUFirst]
  | cons n rest ih =>
      by_cases h : cfg.ttl < now - n.lastUsedAt
      · by_cases hc : cfg.hasEvictionChannel <;>
          simp [sweepLRUFirst, h, ih, emitted, hc, List.filter_cons]
      · by_cases hc : cfg.hasEvictionChannel <;>
          simp [sweepLRUFirst, h, ih, emitted, hc, List.filter_cons]

theorem evictExpiredEntries_nodes (cfg : Config K V) (c : CacheState K V) (now : Int) :
    (evictExpiredEntries cfg c now).1.nodes =
      c.nodes.filter (fun n => decide (now - n.lastUsedAt ≤ cfg.ttl)) := by
  simp [evictExpiredEntries, sweepLRUFirst_fst, List.filter_reverse, List.reverse_reverse]

theorem evictExpiredEntries_gcTimer (cfg : Config K V) (c : CacheState K V) (now : Int) :
    (evictExpiredEntries cfg c now).1.gcTimer = c.gcTimer := rfl

theorem evictExpiredEntries_snd (cfg : Config K V) (c : CacheState K V) (now : Int) :
    (evictExpiredEntries cfg c now).2 =
      if cfg.hasEvictionChannel then
        (c.nodes.reverse.filter (fun n => decide (cfg.ttl < now - n.lastUsedAt))).map
          (fun n => n.toEvictedEntry EvictionReason.expired now)
      else [] := by
  simp [evictExpiredEntries, sweepLRUFirst_snd]

theorem population_eq_length (c : CacheState K V) (h : (keysOf c).Nodup) :
    population c = c.nodes.length := by
  unfold population indexKeys
  rw [List.dedup_eq_self.2 h]
  unfold keysOf
  exact List.length_map _ _

theorem map_key_erase (l : List (DoublyLinkedNode K V)) (n : DoublyLinkedNode K V)
    (hnd : (l.map (fun x => x.key)).Nodup) (hm : n ∈ l) :
    (l.erase n).map (fun x => x.key) = (l.map (fun x => x.key)).erase n.key := by
  induction l with
  | nil => cases hm
  | cons m rest ih =>
      by_cases hmn : m = n
      · subst hmn
        rw [List.erase_cons_head, List.map_cons, List.erase_cons_head]
      · have hm2 : n ∈ rest := by
          cases List.mem_cons.1 hm with
          | inl h => exact absurd h.symm hmn
          | inr h => exact h
        have hnd2 : (rest.map (fun x => x.key)).Nodup := (List.nodup_cons.1 hnd).2
        have hkeyne : m.key ≠ n.key := by
          intro he
          have hmm : n.key ∈ rest.map (fun x => x.key) :=
            List.mem_map_of_mem (fun x => x.key) hm2
          rw [← he] at hmm
          exact (List.nodup_cons.1 hnd).1 hmm
        rw [List.erase_cons_tail (by simpa using hmn), List.map_cons, List.map_cons,
          List.erase_cons_tail (by simpa using hkeyne), ih hnd2 hm2]

theorem keys_nodup_erase (c : CacheState K V) (n : DoublyLinkedNode K V)
    (hnd : (keysOf c).Nodup) :
    ((c.nodes.erase n).map (fun x => x.key)).Nodup :=
  hnd.sublist (List.Sublist.map (fun x => x.key) (List.erase_sublist n c.nodes))

theorem not_mem_keys_erase {c : CacheState K V} {k : K} {n : DoublyLinkedNode K V}
    (hnd : (keysOf c).Nodup) (h : lookupNode c k = some n) :
    k ∉ (c.nodes.erase n).map (fun x => x.key) := by
  have hm := lookupNode_mem h
  have hkey := lookupNode_key h
  rw [map_key_erase c.nodes n hnd hm, hkey]
  intro hmem
  exact absurd ((hnd.mem_erase_iff).1 hmem).1 (by simp)

theorem population_evictEntry (cfg : Config K V) (c : CacheState K V)
    (n : DoublyLinkedNode K V) (reason : EvictionReason) (now : Int)
    (hnd : (keysOf c).Nodup) (hm : n ∈ c.nodes) :
    population (evictEntry cfg c n reason now).1 = population c - 1 := by
  have h1 : (keysOf { c with nodes := c.nodes.erase n }).Nodup := keys_nodup_erase c n hnd
  show population { c with nodes := c.nodes.erase n } = population c - 1
  rw [population_eq_length _ h1, population_eq_length c hnd]
  exact List.length_erase_of_mem hm

theorem population_handleNodeState_some (cfg : Config K V) (c : CacheState K V) (k : K)
    (v : V) (ts : Option Int) (now : Int) (n : DoublyLinkedNode K V)
    (hnd : (keysOf c).Nodup) (h : lookupNode c k = some n) :
    population (handleNodeState cfg c { key := k, value := v, timestamp := ts } now) =
      population c := by
  have hm := lookupNode_mem h
  have hpos : 0 < c.nodes.length := List.length_pos_of_mem hm
  rw [handleNodeState_some cfg c k v ts now n h]
  have hnotin : n.key ∉ (c.nodes.erase n).map (fun x => x.key) := by
    have := not_mem_keys_erase hnd h
    rwa [lookupNode_key h]
  have hnd2 : (keysOf { c with nodes :=
      { n with
        counter := if cfg.ttl ≥ now - n.lastUsedAt then n.counter + 1 else n.counter,
        lastUsedAt := ts.getD now } :: c.nodes.erase n }).Nodup := by
    simp only [keysOf, List.map_cons]
    exact List.nodup_cons.2 ⟨hnotin, keys_nodup_erase c n hnd⟩
  rw [population_eq_length _ hnd2, population_eq_length c hnd]
  simp only [List.length_cons, List.length_erase_of_mem hm]
  omega

theorem population_handleNodeState_none (cfg : Config K V) (c : CacheState K V) (k : K)
    (v : V) (ts : Option Int) (now : Int)
    (hnd : (keysOf c).Nodup) (h : lookupNode c k = none) :
    population (handleNodeState cfg c { key := k, value := v, timestamp := ts } now) =
      population c + 1 := by
  have hk : k ∉ keysOf c := (lookupNode_eq_none_iff c k).1 h
  rw [handleNodeState_none cfg c k v ts now h]
  have hnd2 : (keysOf { c with nodes :=
      { key := k, value := v,
        counter := if cfg.evictionPolicy = EvictionPolicy.lri then 1 else 0,
        lastUsedAt := ts.getD now, createdAt := now } :: c.nodes }).Nodup := by
    simp only [keysOf, List.map_cons]
    exact List.nodup_cons.2 ⟨hk, hnd⟩
  rw [population_eq_length _ hnd2, population_eq_length c hnd]
  simp

theorem not_mem_keys_erase_of_not_mem {c : CacheState K V} {k : K}
    (n : DoublyLinkedNode K V) (hk : k ∉ keysOf c) :
    k ∉ (c.nodes.erase n).map (fun x => x.key) := fun h =>
  hk (((List.erase_sublist n c.nodes).map (fun x => x.key)).mem h)

theorem population_gcTimer (c : CacheState K V) (t : GCTimer) :
    population { c with gcTimer := t } = population c := rfl

theorem population_nodes_sublist_le {c : CacheState K V}
    {l : List (DoublyLinkedNode K V)} (hnd : (keysOf c).Nodup)
    (hs : List.Sublist l c.nodes) (t : GCTimer) :
    population { nodes := l, gcTimer := t } ≤ population c := by
  have hnd2 : ((⟨l, t⟩ : CacheState K V).nodes.map (fun x => x.key)).Nodup :=
    hnd.sublist (hs.map (fun x => x.key))
  rw [population_eq_length _ hnd2, population_eq_length c hnd]
  exact hs.length_le

theorem set_fresh_head (cfg : Config K V) (c : CacheState K V) (k : K) (v : V)
    (ts : Option Int) (now : Int) (hk : k ∉ keysOf c) :
    (set cfg c k v ts now).2.1.nodes.head? =
      some { key := k, value := v,
             counter := if cfg.evictionPolicy = EvictionPolicy.lri then 1 else 0,
             lastUsedAt := ts.getD now, createdAt := now } := by
  have hka : k ∉ keysOf (armTimer c) := by rw [keysOf_armTimer]; exact hk
  by_cases hg : cfg.maxSize ≠ 0 ∧ (population c : Int) = cfg.maxSize
  · cases hlast : c.nodes.getLast? with
    | none =>
        rw [set_of_not_mem_full_nil cfg c k v ts now hk hg.1 hg.2 hlast]
        rw [handleNodeState_none cfg (armTimer c) k v ts now
          ((lookupNode_eq_none_iff _ k).2 hka)]
        rfl
    | some last =>
        rw [set_of_not_mem_full cfg c k v ts now last hk hg.1 hg.2 hlast]
        have hk2 : k ∉ keysOf { armTimer c with nodes := c.nodes.erase last } := by
          show k ∉ (c.nodes.erase last).map (fun x => x.key)
          exact not_mem_keys_erase_of_not_mem last hk
        rw [handleNodeState_none cfg _ k v ts now ((lookupNode_eq_none_iff _ k).2 hk2)]
        rfl
  · rw [set_of_not_mem_notfull cfg c k v ts now hk hg]
    rw [handleNodeState_none cfg (armTimer c) k v ts now
      ((lookupNode_eq_none_iff _ k).2 hka)]
    rfl

theorem set_existing_head (cfg : Config K V) (c : CacheState K V) (k : K) (v : V)
    (ts : Option Int) (now : Int) (nd : DoublyLinkedNode K V)
    (hpol : cfg.evictionPolicy = EvictionPolicy.lri)
    (hhead : c.nodes.head? = some nd) (hkey : nd.key = k) :
    (set cfg c k v ts now).2.1.nodes.head? =
      some { nd with
             counter := if cfg.ttl ≥ now - nd.lastUsedAt then nd.counter + 1 else nd.counter,
             lastUsedAt := ts.getD now } := by
  obtain ⟨tl, htl⟩ : ∃ tl, c.nodes = nd :: tl := by
    cases hn : c.nodes with
    | nil => rw [hn] at hhead; cases hhead
    | cons a t =>
        rw [hn] at hhead
        simp only [List.head?_cons, Option.some.injEq] at hhead
        exact ⟨t, by rw [hhead]⟩
  have hk : k ∈ keysOf c := by
    rw [keysOf, htl, List.map_cons, hkey]; exact List.mem_cons_self _ _
  have hlk : lookupNode c k = some nd := by
    rw [lookupNode, htl]
    exact List.find?_cons_of_pos tl (by simp [hkey])
  have hlka : lookupNode (armTimer c) k = some nd := by
    rw [lookupNode_armTimer]; exact hlk
  rw [set_of_mem cfg c k v ts now hk, if_neg (by rw [hpol]; intro hx; cases hx)]
  rw [handleNodeState_some cfg (armTimer c) k v ts now nd hlka]
  rfl

theorem get_live_lra (cfg : Config K V) (c : CacheState K V) (k : K) (now : Int)
    (n : DoublyLinkedNode K V) (hpol : cfg.evictionPolicy = EvictionPolicy.lra)
    (h : lookupNode c k = some n) (hlive : now - n.lastUsedAt ≤ cfg.ttl) :
    get cfg c k now =
      (some ({ n with counter := n.counter + 1, lastUsedAt := now } :
          DoublyLinkedNode K V).toCacheEntry,
       { c with nodes :=
          { n with counter := n.counter + 1, lastUsedAt := now } :: c.nodes.erase n },
       []) := by
  have hnl : ¬ cfg.ttl < now - n.lastUsedAt := not_lt.mpr hlive
  have hupd : handleNodeState cfg c { key := k, value := n.value, timestamp := none } now =
      { c with nodes :=
          { n with counter := n.counter + 1, lastUsedAt := now } :: c.nodes.erase n } := by
    rw [handleNodeState_some cfg c k n.value none now n h]
    rw [if_pos (le_of_not_lt hnl)]
    rfl
  have hlk2 : lookupNode ({ c with nodes :=
      { n with counter := n.counter + 1, lastUsedAt := now } :: c.nodes.erase n }) k =
      some { n with counter := n.counter + 1, lastUsedAt := now } := by
    rw [lookupNode]
    exact List.find?_cons_of_pos _ (by simp [lookupNode_key h])
  simp only [get, h, if_neg hnl, if_pos hpol, hupd, hlk2]
  rfl

theorem get_live_lri (cfg : Config K V) (c : CacheState K V) (k : K) (now : Int)
    (n : DoublyLinkedNode K V) (hpol : cfg.evictionPolicy = EvictionPolicy.lri)
    (h : lookupNode c k = some n) (hlive : now - n.lastUsedAt ≤ cfg.ttl) :
    get cfg c k now = (some n.toCacheEntry, c, []) := by
  have hnl : ¬ cfg.ttl < now - n.lastUsedAt := not_lt.mpr hlive
  have hne : ¬ cfg.evictionPolicy = EvictionPolicy.lra := by
    rw [hpol]; intro hx; cases hx
  simp only [get, h, if_neg hnl, if_neg hne]

theorem get_expired (cfg : Config K V) (c : CacheState K V) (k : K) (now : Int)
    (n : DoublyLinkedNode K V) (h : lookupNode c k = some n)
    (hexp : cfg.ttl < now - n.lastUsedAt) :
    get cfg c k now =
      (none, { c with nodes := c.nodes.erase n },
       emitted cfg n EvictionReason.expired now) := by
  simp only [get, h, if_pos hexp, evictEntry]

theorem population_set_le (cfg : Config K V) (c : CacheState K V) (k : K) (v : V)
    (ts : Option Int) (now : Int) (N : Nat) (hN : cfg.maxSize = (N : Int)) (h0 : 0 < N)
    (hnd : (keysOf c).Nodup) (hpop : population c ≤ N) :
    population (set cfg c k v ts now).2.1 ≤ N := by
  have hnda : (keysOf (armTimer c)).Nodup := by rw [keysOf_armTimer]; exact hnd
  by_cases hk : k ∈ keysOf c
  · rw [set_of_mem cfg c k v ts now hk]
    by_cases hp : cfg.evictionPolicy = EvictionPolicy.lra
    · rw [if_pos hp]
      simpa [population_armTimer] using hpop
    · rw [if_neg hp]
      obtain ⟨n, hn⟩ := lookupNode_isSome_of_mem hk
      have hn2 : lookupNode (armTimer c) k = some n := by
        rw [lookupNode_armTimer]; exact hn
      show population (handleNodeState cfg (armTimer c)
        { key := k, value := v, timestamp := ts } now) ≤ N
      rw [population_handleNodeState_some cfg (armTimer c) k v ts now n hnda hn2,
        population_armTimer]
      exact hpop
  · have hka : k ∉ keysOf (armTimer c) := by rw [keysOf_armTimer]; exact hk
    by_cases hg : cfg.maxSize ≠ 0 ∧ (population c : Int) = cfg.maxSize
    · have hpc : population c = N := by
        have h2 := hg.2
        rw [hN] at h2
        exact_mod_cast h2
      have hpos : 0 < c.nodes.length := by
        rw [← population_eq_length c hnd]; omega
      have hne : c.nodes ≠ [] := by
        intro hnil; rw [hnil] at hpos; simp at hpos
      obtain ⟨last, hlast⟩ : ∃ last, c.nodes.getLast? = some last := by
        cases hl : c.nodes.getLast? with
        | none => exact absurd (List.getLast?_eq_none_iff.1 hl) hne
        | some x => exact ⟨x, rfl⟩
      have hmlast : last ∈ c.nodes := List.mem_of_mem_getLast? hlast
      rw [set_of_not_mem_full cfg c k v ts now last hk hg.1 hg.2 hlast]
      have hnd2 : (keysOf { armTimer c with nodes := c.nodes.erase last }).Nodup :=
        keys_nodup_erase c last hnd
      have hk2 : k ∉ keysOf { armTimer c with nodes := c.nodes.erase last } :=
        not_mem_keys_erase_of_not_mem last hk
      show population (handleNodeState cfg { armTimer c with nodes := c.nodes.erase last }
        { key := k, value := v, timestamp := ts } now) ≤ N
      rw [population_handleNodeState_none cfg _ k v ts now hnd2
        ((lookupNode_eq_none_iff _ k).2 hk2)]
      have hplen : population { armTimer c with nodes := c.nodes.erase last } =
          c.nodes.length - 1 := by
        rw [population_eq_length _ hnd2]
        exact List.length_erase_of_mem hmlast
      have hlen : c.nodes.length = N := by
        rw [← population_eq_length c hnd]; exact hpc
      omega
    · rw [set_of_not_mem_notfull cfg c k v ts now hk hg]
      show population (handleNodeState cfg (armTimer c)
        { key := k, value := v, timestamp := ts } now) ≤ N
      rw [population_handleNodeState_none cfg _ k v ts now hnda
        ((lookupNode_eq_none_iff _ k).2 hka), population_armTimer]
      have hne : population c ≠ N := by
        intro he
        apply hg
        refine ⟨by rw [hN]; exact_mod_cast h0.ne', ?_⟩
        rw [hN, he]
      omega

theorem population_get_le (cfg : Config K V) (c : CacheState K V) (k : K) (now : Int)
    (N : Nat) (hnd : (keysOf c).Nodup) (hpop : population c ≤ N) :
    population (get cfg c k now).2.1 ≤ N := by
  cases h : lookupNode c k with
  | none => simpa [get, h] using hpop
  | some n =>
      by_cases hexp : cfg.ttl < now - n.lastUsedAt
      · rw [get_expired cfg c k now n h hexp]
        show population { c with nodes := c.nodes.erase n } ≤ N
        have := population_nodes_sublist_le hnd (List.erase_sublist n c.nodes) c.gcTimer
        omega
      · by_cases hp : cfg.evictionPolicy = EvictionPolicy.lra
        · simp only [get, h, if_neg hexp, if_pos hp]
          rw [population_handleNodeState_some cfg c k n.value none now n hnd h]
          exact hpop
        · rw [get_live_lri cfg c k now n
            (by cases hpl : cfg.evictionPolicy with
                | lra => exact absurd hpl hp
                | lri => rfl) h (not_lt.mp hexp)]
          exact hpop

theorem population_delete_le (cfg : Config K V) (c : CacheState K V) (k : K) (now : Int)
    (N : Nat) (hnd : (keysOf c).Nodup) (hpop : population c ≤ N) :
    population (delete cfg c k now).1 ≤ N := by
  cases h : lookupNode c k with
  | none => simpa [delete, h] using hpop
  | some n =>
      simp only [delete, h, evictEntry]
      have := population_nodes_sublist_le hnd (List.erase_sublist n c.nodes) c.gcTimer
      omega

theorem lookupNode_of_head {c : CacheState K V} {k : K} {nd : DoublyLinkedNode K V}
    (hhead : c.nodes.head? = some nd) (hkey : nd.key = k) :
    lookupNode c k = some nd := by
  cases hn : c.nodes with
  | nil => rw [hn] at hhead; cases hhead
  | cons a t =>
      rw [hn] at hhead
      simp only [List.head?_cons, Option.some.injEq] at hhead
      rw [lookupNode, hn, hhead]
      exact List.find?_cons_of_pos t (by simp [hkey])

theorem clearInternal_gcTimer (c : CacheState K V) :
    (clearInternal c).gcTimer = c.gcTimer := by
  unfold clearInternal; split <;> rfl

theorem evictExpiredEntries_fst (cfg : Config K V) (c : CacheState K V) (now : Int) :
    (evictExpiredEntries cfg c now).1 =
      { nodes := c.nodes.filter (fun n => decide (now - n.lastUsedAt ≤ cfg.ttl)),
        gcTimer := c.gcTimer } := by
  show ({ nodes := (sweepLRUFirst cfg now c.nodes.reverse).1.reverse,
          gcTimer := c.gcTimer } : CacheState K V) = _
  rw [sweepLRUFirst_fst, List.filter_reverse, List.reverse_reverse]

theorem toNode_toStateEntry (n : DoublyLinkedNode K V) :
    n.toStateEntry.toNode = n := rfl

theorem map_toNode_toStateEntry (l : List (DoublyLinkedNode K V)) :
    (l.map DoublyLinkedNode.toStateEntry).map StateEntry.toNode = l := by
  induction l with
  | nil => rfl
  | cons a t ih => simp only [List.map_cons, ih, toNode_toStateEntry]

/-! Concrete values used to instantiate theorems with hypotheses. -/

/-- A sample LRA configuration (full at two entries). -/
def sampleLRA : Config Nat Nat :=
  { maxSize := 2, ttl := 10, hasEvictionChannel := true,
    evictionPolicy := EvictionPolicy.lra }

/-- A sample LRI configuration. -/
def sampleLRI : Config Nat Nat :=
  { maxSize := 3, ttl := 10, hasEvictionChannel := true,
    evictionPolicy := EvictionPolicy.lri }

/-- A sample populated cache: key 1 live at time 100, key 2 carrying a far
backdated timestamp (expired at time 100 under the sample TTL of 10). -/
def sampleCache : CacheState Nat Nat :=
  { nodes := [{ key := 1, value := 11, counter := 0, lastUsedAt := 100, createdAt := 50 },
              { key := 2, value := 22, counter := 0, lastUsedAt := -1000, createdAt := 40 }],
    gcTimer := GCTimer.armed }

/-- A sample one-entry cache whose GC timer has never been started. -/
def sampleIdle : CacheState Nat Nat :=
  { nodes := [{ key := 1, value := 11, counter := 0, lastUsedAt := 100, createdAt := 50 }],
    gcTimer := GCTimer.noTimer }

/-! Claim theorems. -/

/-- C3: one expiry sweep (as run by the sweeper tick and by `Keys`/`Entries`)
walks from `tail.prev` toward `head` examining every node and evicts with
reason `Expired` exactly those nodes with `now - last_used_at > TTL`: the
survivors are the filter of the whole list (so the walk never stops at a
non-expired node, and an expired node close to the head is evicted in the
same sweep), and the notifications are exactly the expired nodes in
tail-to-head order, each with reason `Expired`. -/
theorem C3_sweep_full_scan (cfg : Config K V) (c : CacheState K V) (now : Int) :
    (evictExpiredEntries cfg c now).1.nodes =
        c.nodes.filter (fun n => decide (now - n.lastUsedAt ≤ cfg.ttl)) ∧
    (evictExpiredEntries cfg c now).2 =
      (if cfg.hasEvictionChannel then
        (c.nodes.reverse.filter (fun n => decide (cfg.ttl < now - n.lastUsedAt))).map
          (fun n => n.toEvictedEntry EvictionReason.expired now)
      else []) ∧
    (keys cfg c now).2 = evictExpiredEntries cfg c now ∧
    (entries cfg c now).2 = evictExpiredEntries cfg c now ∧
    (gcTick cfg { c with gcTimer := GCTimer.armed } now).2.1.nodes =
      c.nodes.filter (fun n => decide (now - n.lastUsedAt ≤ cfg.ttl)) ∧
    (gcTick cfg { c with gcTimer := GCTimer.armed } now).2.2 =
      (evictExpiredEntries cfg c now).2 := by
  refine ⟨evictExpiredEntries_nodes cfg c now, evictExpiredEntries_snd cfg c now,
    rfl, rfl, ?_, ?_⟩
  · show (evictExpiredEntries cfg { c with gcTimer := GCTimer.armed } now).1.nodes = _
    rw [evictExpiredEntries_nodes]
  · show (evictExpiredEntries cfg { c with gcTimer := GCTimer.armed } now).2 = _
    rw [evictExpiredEntries_snd, evictExpiredEntries_snd]

/-- C4: under LRA, `Set` (and `SetWithTimestamp`) on a key already present
returns the duplicate-key error, leaves the recency list and index unchanged,
and emits no notification — with no restriction on the cache being full. -/
theorem C4_lra_duplicate_set_rejected (cfg : Config K V) (c : CacheState K V) (k : K)
    (v : V) (ts : Option Int) (now : Int)
    (hpol : cfg.evictionPolicy = EvictionPolicy.lra) (hk : k ∈ keysOf c) :
    (set cfg c k v ts now).1 = some CacheError.duplicateKey ∧
    (set cfg c k v ts now).2.1.nodes = c.nodes ∧
    indexKeys (set cfg c k v ts now).2.1 = indexKeys c ∧
    (set cfg c k v ts now).2.2 = [] := by
  rw [set_of_mem cfg c k v ts now hk, if_pos hpol]
  exact ⟨rfl, armTimer_nodes c, by simp [indexKeys, keysOf_armTimer], rfl⟩

/-- C4 witness: a duplicate `Set` on a full two-entry LRA cache. -/
theorem C4_lra_duplicate_set_rejected_witness :
    (set sampleLRA sampleCache 1 99 none 0).1 = some CacheError.duplicateKey ∧
    (set sampleLRA sampleCache 1 99 none 0).2.1.nodes = sampleCache.nodes ∧
    (set sampleLRA sampleCache 1 99 none 0).2.2 = [] := by
  have h := C4_lra_duplicate_set_rejected sampleLRA sampleCache 1 99 none 0
    (by decide) (by decide)
  exact ⟨h.1, h.2.1, h.2.2.2⟩

/-- C5: `Get` on a present key whose age exceeds the TTL strictly evicts the
node with reason `Expired` (one notification if a sink is configured), drops
the key from the index, and returns empty — for an arbitrary (hence possibly
far backdated) `last_used_at`. -/
theorem C5_get_expired_evicts (cfg : Config K V) (c : CacheState K V) (k : K)
    (now : Int) (n : DoublyLinkedNode K V) (hnd : (keysOf c).Nodup)
    (h : lookupNode c k = some n) (hexp : cfg.ttl < now - n.lastUsedAt) :
    (get cfg c k now).1 = none ∧
    (get cfg c k now).2.1 = { c with nodes := c.nodes.erase n } ∧
    k ∉ indexKeys (get cfg c k now).2.1 ∧
    (get cfg c k now).2.2 =
      (if cfg.hasEvictionChannel then [n.toEvictedEntry EvictionReason.expired now]
       else []) := by
  rw [get_expired cfg c k now n h hexp]
  refine ⟨rfl, rfl, ?_, rfl⟩
  simp only [mem_indexKeys_iff]
  exact not_mem_keys_erase hnd h

/-- C5 witness: key 2 of the sample cache carries the backdated timestamp
-1000, expired at time 100 under TTL 10. -/
theorem C5_get_expired_evicts_witness :
    (get sampleLRA sampleCache 2 100).1 = none ∧
    2 ∉ indexKeys (get sampleLRA sampleCache 2 100).2.1 ∧
    (get sampleLRA sampleCache 2 100).2.2 =
      [{ key := 2, value := 22, counter := 0, lastUsedAt := -1000, createdAt := 40,
         evictedAt := 100, reason := EvictionReason.expired }] := by
  have h := C5_get_expired_evicts sampleLRA sampleCache 2 100
    { key := 2, value := 22, counter := 0, lastUsedAt := -1000, createdAt := 40 }
    (by decide) (by decide) (by decide)
  exact ⟨h.1, h.2.2.1, by rw [h.2.2.2]; rfl⟩

/-- C8: `Has` is a pure index lookup: it returns true exactly when the key is
in the index, changes nothing, emits nothing, and in particular returns true
on an expired key for which `Get` returns empty. -/
theorem C8_has_ignores_ttl (cfg : Config K V) (c : CacheState K V) (k : K)
    (now : Int) (n : DoublyLinkedNode K V) :
    ((has c k).1 = true ↔ k ∈ indexKeys c) ∧
    (has c k).2.1 = c ∧
    (has c k).2.2 = [] ∧
    (lookupNode c k = some n → cfg.ttl < now - n.lastUsedAt →
      (has c k).1 = true ∧ (get cfg c k now).1 = none) := by
  refine ⟨by simp [has, hasKey], rfl, rfl, fun h hexp => ⟨?_, ?_⟩⟩
  · show hasKey c k = true
    rw [hasKey_iff, keysOf]
    exact List.mem_map.2 ⟨n, lookupNode_mem h, lookupNode_key h⟩
  · rw [get_expired cfg c k now n h hexp]

/-- C8 witness: key 2 of the sample cache is expired at time 100; `Has` still
answers true while `Get` answers empty. -/
theorem C8_has_ignores_ttl_witness :
    (has sampleCache 2).1 = true ∧ (get sampleLRA sampleCache 2 100).1 = none ∧
    (has sampleCache 2).2.1 = sampleCache ∧ (has sampleCache 2).2.2 = [] := by
  have h := C8_has_ignores_ttl sampleLRA sampleCache 2 100
    { key := 2, value := 22, counter := 0, lastUsedAt := -1000, createdAt := 40 }
  have h4 := h.2.2.2 (by decide) (by decide)
  exact ⟨h4.1, h4.2, h.2.1, h.2.2.1⟩

/-- C10: every `set` call on a cache whose GC timer handle is nil installs
the timer, also when the call then fails with the duplicate-key error under
LRA; the cache leaves the idle phase even on a failing `Set`. -/
theorem C10_set_arms_timer_even_on_error (cfg : Config K V) (c : CacheState K V)
    (k : K) (v : V) (ts : Option Int) (now : Int)
    (h : c.gcTimer = GCTimer.noTimer) :
    (set cfg c k v ts now).2.1.gcTimer = GCTimer.armed ∧
    (cfg.evictionPolicy = EvictionPolicy.lra → k ∈ keysOf c →
      (set cfg c k v ts now).1 = some CacheError.duplicateKey ∧
      (set cfg c k v ts now).2.1.gcTimer = GCTimer.armed) := by
  have h1 : (set cfg c k v ts now).2.1.gcTimer = GCTimer.armed := by
    rw [set_gcTimer, armTimer_gcTimer_of_noTimer h]
  refine ⟨h1, fun hp hk => ⟨?_, h1⟩⟩
  rw [set_of_mem cfg c k v ts now hk, if_pos hp]

/-- C10 witness: a duplicate `Set` under LRA on an idle cache still arms the
timer. -/
theorem C10_set_arms_timer_even_on_error_witness :
    (set sampleLRA sampleIdle 1 99 none 0).2.1.gcTimer = GCTimer.armed ∧
    (set sampleLRA sampleIdle 1 99 none 0).1 = some CacheError.duplicateKey := by
  have h := C10_set_arms_timer_even_on_error sampleLRA sampleIdle 1 99 none 0 (by decide)
  have h2 := h.2 (by decide) (by decide)
  exact ⟨h.1, h2.1⟩

/-- C2 counterexample: the sweeper does not fire repeatedly.  Arm the timer
with a first `Set`, let it fire once, then `Set` a second key (no `Clear` in
between, so the cache stays alive); when that key has long expired, the next
tick does not fire, changes nothing, emits nothing — the expired entry stays,
refuting "expired entries continue to be evicted on every tick, not only
once". -/
theorem C2_counterexample_second_tick_never_fires :
    let c1 := (set sampleLRI newCache 1 10 none 0).2.1
    let c2 := (gcTick sampleLRI c1 100).2.1
    let c3 := (set sampleLRI c2 2 20 none 100).2.1
    (gcTick sampleLRI c1 100).1 = true ∧
    c3.gcTimer = GCTimer.fired ∧
    (∃ n ∈ c3.nodes, sampleLRI.ttl < 200 - n.lastUsedAt) ∧
    (gcTick sampleLRI c3 200).1 = false ∧
    (gcTick sampleLRI c3 200).2.1 = c3 ∧
    (gcTick sampleLRI c3 200).2.2 = [] := by decide

/-- C2 amended: the sweeper timer is one-shot.  It is started lazily by a
`Set` that finds no timer handle and then fires exactly once: an armed tick
runs one full expiry sweep and leaves the timer in the fired phase, where
further ticks are impossible and further `Set` calls do not re-arm it;
`Clear` discards the timer, so only a `Set` after a `Clear` begins a fresh
(again one-shot) schedule. -/
theorem C2_amended_one_shot_sweeper (cfg : Config K V) (c : CacheState K V) (k : K)
    (v : V) (ts : Option Int) (now : Int) :
    (c.gcTimer = GCTimer.noTimer →
      (set cfg c k v ts now).2.1.gcTimer = GCTimer.armed) ∧
    (c.gcTimer = GCTimer.armed →
      (gcTick cfg c now).1 = true ∧
      (gcTick cfg c now).2.1.gcTimer = GCTimer.fired ∧
      (gcTick cfg c now).2.1.nodes =
        c.nodes.filter (fun n => decide (now - n.lastUsedAt ≤ cfg.ttl))) ∧
    (c.gcTimer = GCTimer.armed →
      (set cfg c k v ts now).2.1.gcTimer = GCTimer.armed) ∧
    (c.gcTimer = GCTimer.fired → gcTick cfg c now = (false, c, [])) ∧
    (c.gcTimer = GCTimer.fired →
      (set cfg c k v ts now).2.1.gcTimer = GCTimer.fired) ∧
    ((clear c).1.gcTimer = GCTimer.noTimer) := by
  refine ⟨fun h => by rw [set_gcTimer, armTimer_gcTimer_of_noTimer h],
          fun h => ⟨by simp [gcTick, h], by simp [gcTick, h], ?_⟩,
          fun h => by
            rw [set_gcTimer, armTimer_of_ne (by rw [h]; intro hx; cases hx), h],
          fun h => by simp [gcTick, h],
          fun h => by
            rw [set_gcTimer, armTimer_of_ne (by rw [h]; intro hx; cases hx), h],
          rfl⟩
  simp only [gcTick, h]
  rw [evictExpiredEntries_fst]

/-- C2 amended witness: a fresh cache is armed by `Set`, ticks once, stays
fired through another `Set`, and is reset by `Clear`. -/
theorem C2_amended_one_shot_sweeper_witness :
    (set sampleLRI newCache 1 10 none 0).2.1.gcTimer = GCTimer.armed ∧
    (gcTick sampleLRI sampleCache 100).1 = true ∧
    gcTick sampleLRI { sampleCache with gcTimer := GCTimer.fired } 100 =
      (false, { sampleCache with gcTimer := GCTimer.fired }, []) ∧
    (clear sampleCache).1.gcTimer = GCTimer.noTimer := by
  have h1 := (C2_amended_one_shot_sweeper sampleLRI newCache 1 10 none 0).1 (by decide)
  have h2 := ((C2_amended_one_shot_sweeper sampleLRI sampleCache 1 10 none 100).2.1
    (by decide)).1
  have h3 := (C2_amended_one_shot_sweeper sampleLRI
    { sampleCache with gcTimer := GCTimer.fired } 1 10 none 100).2.2.2.1 (by decide)
  have h4 := (C2_amended_one_shot_sweeper sampleLRI sampleCache 1 10 none 100).2.2.2.2.2
  exact ⟨h1, h2, h3, h4⟩

/-- C7: taking the state, clearing, and restoring it succeeds (the exported
policy always matches), rebuilds exactly the original node list (so the key
set, the MRU-first order and every `counter`/`last_used_at`/`created_at`/
`value` are preserved and a later `GetState` exports the same entries), and
neither `Clear` nor `SetState` emits a notification. -/
theorem C7_state_roundtrip (cfg : Config K V) (c : CacheState K V) (now now2 : Int) :
    (setState cfg (clear c).1 (getState cfg c now)).1 = none ∧
    (setState cfg (clear c).1 (getState cfg c now)).2.1.nodes = c.nodes ∧
    keysOf (setState cfg (clear c).1 (getState cfg c now)).2.1 = keysOf c ∧
    (getState cfg (setState cfg (clear c).1 (getState cfg c now)).2.1 now2).entries =
      (getState cfg c now).entries ∧
    (clear c).2 = [] ∧
    (setState cfg (clear c).1 (getState cfg c now)).2.2 = [] := by
  have hpol : ¬ ((getState cfg c now).evictionPolicy ≠ cfg.evictionPolicy) :=
    fun hx => hx rfl
  have hnodes : (setState cfg (clear c).1 (getState cfg c now)).2.1.nodes = c.nodes := by
    simp only [setState, if_neg hpol]
    show ((getState cfg c now).entries.map StateEntry.toNode) = c.nodes
    exact map_toNode_toStateEntry c.nodes
  refine ⟨by simp only [setState, if_neg hpol], hnodes, ?_, ?_, rfl,
    by simp only [setState, if_neg hpol]⟩
  · rw [keysOf, hnodes]; rfl
  · show (setState cfg (clear c).1 (getState cfg c now)).2.1.nodes.map
        DoublyLinkedNode.toStateEntry = c.nodes.map DoublyLinkedNode.toStateEntry
    rw [hnodes]

/-- C9: under LRI, a second `Set` of the same key within the TTL does not
replace the stored value and keeps `created_at`: after `Set(k, v1)` at
`now1` and `Set(k, v2)` at `now2`, `Get(k)` at `now3` still returns value
`v1` with `created_at = now1`, while `counter` is 2 and `last_used_at` is
`now2`. -/
theorem C9_lri_set_preserves_value (cfg : Config K V) (c : CacheState K V) (k : K)
    (v1 v2 : V) (now1 now2 now3 : Int)
    (hpol : cfg.evictionPolicy = EvictionPolicy.lri) (hk : k ∉ keysOf c)
    (h12 : now2 - now1 ≤ cfg.ttl) (h23 : now3 - now2 ≤ cfg.ttl) :
    (get cfg (set cfg (set cfg c k v1 none now1).2.1 k v2 none now2).2.1 k now3).1 =
      some { key := k, value := v1, counter := 2, lastUsedAt := now2,
             createdAt := now1 } := by
  have h1 : (set cfg c k v1 none now1).2.1.nodes.head? =
      some { key := k, value := v1, counter := 1, lastUsedAt := now1,
             createdAt := now1 } := by
    rw [set_fresh_head cfg c k v1 none now1 hk, hpol]
    rfl
  have h2 : (set cfg (set cfg c k v1 none now1).2.1 k v2 none now2).2.1.nodes.head? =
      some { key := k, value := v1, counter := 2, lastUsedAt := now2,
             createdAt := now1 } := by
    rw [set_existing_head cfg _ k v2 none now2 _ hpol h1 rfl]
    rw [if_pos (by simpa using h12)]
    norm_num
  have hlk := lookupNode_of_head h2 rfl
  rw [get_live_lri cfg _ k now3 _ hpol hlk (by simpa using h23)]
  rfl

/-- C9 witness: two LRI `Set`s of key 7 (values 70 then 71) on an empty
cache, then a `Get`: value 70 and `created_at` of the first insert survive. -/
theorem C9_lri_set_preserves_value_witness :
    (get sampleLRI (set sampleLRI (set sampleLRI newCache 7 70 none 0).2.1
        7 71 none 5).2.1 7 9).1 =
      some { key := 7, value := 70, counter := 2, lastUsedAt := 5,
             createdAt := 0 } :=
  C9_lri_set_preserves_value sampleLRI newCache 7 70 71 0 5 9
    (by decide) (by decide) (by decide) (by decide)

/-- C6: counter discipline.  A fresh insert carries counter 0 under LRA and
1 under LRI; under LRA a successful `Get` of a live key increments the
counter (and is the only mutator, since duplicate `Set`s are rejected);
under LRI a live `Get` is a pure observation, a `Set` of an existing expired
key stamps `last_used_at` without incrementing, and `j` consecutive `Set`s
of the same fresh key within TTL leave counter `j`. -/
theorem C6_counter_discipline (cfg : Config K V) (c : CacheState K V) (k : K) (v : V)
    (ts : Option Int) (now : Int) (n : DoublyLinkedNode K V) :
    (k ∉ keysOf c →
      (set cfg c k v ts now).2.1.nodes.head? =
        some { key := k, value := v,
               counter := if cfg.evictionPolicy = EvictionPolicy.lri then 1 else 0,
               lastUsedAt := ts.getD now, createdAt := now }) ∧
    (cfg.evictionPolicy = EvictionPolicy.lra → lookupNode c k = some n →
      now - n.lastUsedAt ≤ cfg.ttl →
      get cfg c k now =
        (some ({ n with counter := n.counter + 1, lastUsedAt := now } :
            DoublyLinkedNode K V).toCacheEntry,
         { c with nodes :=
            { n with counter := n.counter + 1, lastUsedAt := now } :: c.nodes.erase n },
         [])) ∧
    (cfg.evictionPolicy = EvictionPolicy.lri → lookupNode c k = some n →
      now - n.lastUsedAt ≤ cfg.ttl →
      get cfg c k now = (some n.toCacheEntry, c, [])) ∧
    (cfg.evictionPolicy = EvictionPolicy.lri → c.nodes.head? = some n → n.key = k →
      cfg.ttl < now - n.lastUsedAt →
      (set cfg c k v ts now).2.1.nodes.head? =
        some { n with lastUsedAt := ts.getD now }) ∧
    (cfg.evictionPolicy = EvictionPolicy.lri → 0 ≤ cfg.ttl → k ∉ keysOf c →
      ∀ j : Nat, (setIter cfg c k v now (j + 1)).nodes.head? =
        some { key := k, value := v, counter := (j : Int) + 1,
               lastUsedAt := now, createdAt := now }) := by
  refine ⟨fun hk => set_fresh_head cfg c k v ts now hk,
          fun hpol h hlive => get_live_lra cfg c k now n hpol h hlive,
          fun hpol h hlive => get_live_lri cfg c k now n hpol h hlive,
          fun hpol hhead hkey hexp => ?_, fun hpol httl hk j => ?_⟩
  · rw [set_existing_head cfg c k v ts now n hpol hhead hkey,
      if_neg (not_le.mpr hexp)]
  · induction j with
    | zero =>
        show (set cfg c k v none now).2.1.nodes.head? = _
        rw [set_fresh_head cfg c k v none now hk, hpol]
        norm_num
    | succ i ih =>
        show (set cfg (setIter cfg c k v now (i + 1)) k v none now).2.1.nodes.head? = _
        rw [set_existing_head cfg _ k v none now _ hpol ih rfl,
          if_pos (by rw [sub_self]; exact httl)]
        simp [Nat.cast_succ]

/-- C6 witness: fresh LRI insert has counter 1; an LRA `Get` of the live key
1 returns counter 1 (0 before, incremented); an LRI `Get` leaves the state
untouched; three consecutive LRI `Set`s of key 7 leave counter 3. -/
theorem C6_counter_discipline_witness :
    (set sampleLRI newCache 7 70 none 0).2.1.nodes.head? =
      some { key := 7, value := 70, counter := 1, lastUsedAt := 0, createdAt := 0 } ∧
    (get sampleLRA sampleCache 1 100).1 =
      some { key := 1, value := 11, counter := 1, lastUsedAt := 100,
             createdAt := 50 } ∧
    (get sampleLRI sampleCache 1 100) =
      (some { key := 1, value := 11, counter := 0, lastUsedAt := 100,
              createdAt := 50 },
       sampleCache, []) ∧
    (setIter sampleLRI newCache 7 70 0 3).nodes.head? =
      some { key := 7, value := 70, counter := 3, lastUsedAt := 0,
             createdAt := 0 } := by
  have h1 := (C6_counter_discipline sampleLRI newCache 7 70 none 0
    { key := 7, value := 70, counter := 1, lastUsedAt := 0, createdAt := 0 }).1
    (by decide)
  have h2 := (C6_counter_discipline sampleLRA sampleCache 1 0 none 100
    { key := 1, value := 11, counter := 0, lastUsedAt := 100,
      createdAt := 50 }).2.1 (by decide) (by decide) (by decide)
  have h3 := (C6_counter_discipline sampleLRI sampleCache 1 0 none 100
    { key := 1, value := 11, counter := 0, lastUsedAt := 100,
      createdAt := 50 }).2.2.1 (by decide) (by decide) (by decide)
  have h5 := (C6_counter_discipline sampleLRI newCache 7 70 none 0
    { key := 7, value := 70, counter := 1, lastUsedAt := 0, createdAt := 0
      }).2.2.2.2 (by decide) (by decide) (by decide) 2
  refine ⟨by rw [h1]; rfl, by rw [h2]; rfl, by rw [h3]; rfl, ?_⟩
  rw [h5]
  norm_num

/-- C1 counterexample: with `max_size = 1`, `SetState` of a two-entry state
succeeds and leaves two keys in the index, so the population bound fails
after the public operation `SetState` returns. -/
theorem C1_counterexample_setstate_exceeds_maxsize :
    let cfg : Config Nat Nat :=
      { maxSize := 1, ttl := 1000, hasEvictionChannel := true,
        evictionPolicy := EvictionPolicy.lri }
    let s : State Nat Nat :=
      { entries := [{ key := 1, value := 10, counter := 1, lastUsedAt := 0,
                      createdAt := 0 },
                    { key := 2, value := 20, counter := 1, lastUsedAt := 0,
                      createdAt := 0 }],
        evictionPolicy := EvictionPolicy.lri, extractedAt := 0 }
    (0 : Int) < cfg.maxSize ∧
    (setState cfg newCache s).1 = none ∧
    population (setState cfg newCache s).2.1 = 2 ∧
    ¬ ((population (setState cfg newCache s).2.1 : Int) ≤ cfg.maxSize) := by
  decide

/-- C1 amended: in a state with distinct list keys and population at most
`max_size = N > 0`, every public operation except `SetState` keeps the
population at most `N`; `SetState` instead installs the whole snapshot, so
the resulting population is the number of distinct keys of the snapshot,
with no bound from `N`. -/
theorem C1_amended_population_bound (cfg : Config K V) (c : CacheState K V) (k : K)
    (v : V) (ts : Option Int) (now : Int) (s : State K V) (N : Nat)
    (hN : cfg.maxSize = (N : Int)) (h0 : 0 < N)
    (hnd : (keysOf c).Nodup) (hpop : population c ≤ N) :
    population (set cfg c k v ts now).2.1 ≤ N ∧
    population (get cfg c k now).2.1 ≤ N ∧
    population (delete cfg c k now).1 ≤ N ∧
    population (keys cfg c now).2.1 ≤ N ∧
    population (entries cfg c now).2.1 ≤ N ∧
    population (clear c).1 ≤ N ∧
    population (has c k).2.1 ≤ N ∧
    population (gcTick cfg c now).2.1 ≤ N ∧
    (s.evictionPolicy = cfg.evictionPolicy →
      population (setState cfg c s).2.1 =
        ((s.entries.map (fun e => e.key)).dedup).length) := by
  have hsweep : population (evictExpiredEntries cfg c now).1 ≤ N := by
    rw [evictExpiredEntries_fst]
    exact le_trans
      (population_nodes_sublist_le hnd (List.filter_sublist c.nodes) c.gcTimer) hpop
  have hclear : population (clear c).1 ≤ N := by
    show population { clearInternal c with gcTimer := GCTimer.noTimer } ≤ N
    rw [population_gcTimer]
    unfold clearInternal
    split
    · show population { c with nodes := ([] : List (DoublyLinkedNode K V)) } ≤ N
      show ((([] : List (DoublyLinkedNode K V)).map (fun n => n.key)).dedup).length ≤ N
      simp
    · exact hpop
  refine ⟨population_set_le cfg c k v ts now N hN h0 hnd hpop,
          population_get_le cfg c k now N hnd hpop,
          population_delete_le cfg c k now N hnd hpop,
          hsweep, hsweep, hclear, hpop, ?_, fun hsp => ?_⟩
  · cases ht : c.gcTimer with
    | armed =>
        simp only [gcTick, ht]
        rw [population_gcTimer]
        exact hsweep
    | noTimer => simp only [gcTick, ht]; exact hpop
    | fired => simp only [gcTick, ht]; exact hpop
  · have hss : setState cfg c s =
        (none, { clearInternal c with nodes := s.entries.map StateEntry.toNode },
         []) := by
      simp only [setState]
      rw [if_neg (fun hx : s.evictionPolicy ≠ cfg.evictionPolicy => hx hsp)]
    rw [hss]
    show ((((s.entries.map StateEntry.toNode).map (fun n => n.key)).dedup)).length = _
    rw [List.map_map]
    rfl

/-- C1 amended witness: the sample LRA cache (distinct keys, population 2,
`max_size` 2) keeps population at most 2 under a fresh-key `Set` and the
other operations, while `SetState` of a three-key snapshot yields exactly
three keys. -/
theorem C1_amended_population_bound_witness :
    population (set sampleLRA sampleCache 3 33 none 0).2.1 ≤ 2 ∧
    population (get sampleLRA sampleCache 2 100).2.1 ≤ 2 ∧
    population (delete sampleLRA sampleCache 1 100).1 ≤ 2 ∧
    population (keys sampleLRA sampleCache 100).2.1 ≤ 2 ∧
    population (clear sampleCache).1 ≤ 2 ∧
    population (setState sampleLRA sampleCache
      { entries := [{ key := 5, value := 1, counter := 0, lastUsedAt := 0,
                      createdAt := 0 },
                    { key := 6, value := 2, counter := 0, lastUsedAt := 0,
                      createdAt := 0 },
                    { key := 7, value := 3, counter := 0, lastUsedAt := 0,
                      createdAt := 0 }],
        evictionPolicy := EvictionPolicy.lra, extractedAt := 0 }).2.1 = 3 := by
  have h := C1_amended_population_bound sampleLRA sampleCache 3 33 none 0
    { entries := [{ key := 5, value := 1, counter := 0, lastUsedAt := 0,
                    createdAt := 0 },
                  { key := 6, value := 2, counter := 0, lastUsedAt := 0,
                    createdAt := 0 },
                  { key := 7, value := 3, counter := 0, lastUsedAt := 0,
                    createdAt := 0 }],
      evictionPolicy := EvictionPolicy.lra, extractedAt := 0 } 2
    (by decide) (by decide) (by decide) (by decide)
  have h2 := C1_amended_population_bound sampleLRA sampleCache 2 0 none 100
    { entries := [], evictionPolicy := EvictionPolicy.lra, extractedAt := 0 } 2
    (by decide) (by decide) (by decide) (by decide)
  have h3 := C1_amended_population_bound sampleLRA sampleCache 1 0 none 100
    { entries := [], evictionPolicy := EvictionPolicy.lra, extractedAt := 0 } 2
    (by decide) (by decide) (by decide) (by decide)
  have hset := h.2.2.2.2.2.2.2.2 (by decide)
  refine ⟨h.1, h2.2.1, h3.2.2.1, h2.2.2.2.1, h.2.2.2.2.2.1, ?_⟩
  rw [hset]
  decide

end Tlru
